import Mathlib

/-!
Verification of the CV-builder data model and persistence round-trip
(`src/cv_builder.py`, `src/db_converter.py`,
`src/miscellaneous/publication_manager_updated.py`,
`src/miscellaneous/publication_manager_mwe.py`).

The Python records are dynamically typed nested dicts; we embed them as
typed Lean structures in which every possibly-absent key is an `Option`
field (`none` = key absent, `some v` = key present with value `v`).
Dict iteration order is the insertion order of the underlying Python
dict; year-keyed maps are embedded as association lists in insertion
order with unique keys, the invariant Python dicts maintain.
-/

/-- A JSON value as transmitted by `json.dumps` / `json.loads`
(the Python standard library, an external collaborator of this
repository): we model the value the text layer transmits.  Only the
constructors reachable from the repository's records are included:
strings, arrays and objects (an object is its fields in insertion
order, keys unique). -/
inductive JVal where
  | jstr (s : String)
  | jarr (xs : List JVal)
  | jobj (fields : List (String × JVal))

/-- A possibly-partial publication record: the dict
`{"authors": ..., "title": ..., "journal": ..., "url": ...,
"impact_factor": ..., "citations": ...}` of
`publication_manager_updated.py` in which any key may be absent.
All leaf values in the repository's records are strings. -/
structure PartialPub where
  authors : Option String
  title : Option String
  journal : Option String
  url : Option String
  impact_factor : Option String
  citations : Option String

/-- The `publications` sub-dict: `under_review` (list) and `by_year`
(year-keyed map), either key possibly absent. -/
structure PubSection where
  under_review : Option (List PartialPub)
  by_year : Option (List (String × List PartialPub))

/-- The value stored under the `publications` key: either a dict
(`isinstance(data['publications'], dict)` holds) or any other JSON
value. -/
inductive PubsField where
  | dict (s : PubSection)
  | other (v : JVal)

/-- A possibly-partial top-level record as handled by
`normalize_publications`: the `publications` key and the
`last_updated` key, each possibly absent.  Other keys of the record
are carried through untouched by every function modelled here, so
they are omitted from the embedding. -/
structure PubData where
  publications : Option PubsField
  last_updated : Option String

/-- The per-item pass of `normalize_publications`
(`src/miscellaneous/publication_manager_updated.py` lines 18-26,
identically `publication_manager_mwe.py` lines 17-25): for each of the
six known keys, `if key not in pub: pub[key] = ""`. -/
def normPub (p : PartialPub) : PartialPub where
  authors := some (p.authors.getD "")
  title := some (p.title.getD "")
  journal := some (p.journal.getD "")
  url := some (p.url.getD "")
  impact_factor := some (p.impact_factor.getD "")
  citations := some (p.citations.getD "")

/-- `normalize_publications`
(`src/miscellaneous/publication_manager_updated.py` lines 11-27,
identically `publication_manager_mwe.py` lines 10-26): if
`publications` is absent or not a dict it is replaced by
`{"under_review": [], "by_year": {}}`; a missing `under_review` becomes
`[]`, a missing `by_year` becomes `{}`; then every item of
`under_review` and of every `by_year` bucket gets its missing leaf
keys backfilled with `""`. -/
def normalize_publications (d : PubData) : PubData :=
  let s : PubSection :=
    match d.publications with
    | some (.dict s) => s
    | _ => { under_review := some [], by_year := some [] }
  let ur := s.under_review.getD []
  let byr := s.by_year.getD []
  { d with
      publications := some (.dict
        { under_review := some (ur.map normPub)
          by_year := some (byr.map (fun kv => (kv.1, kv.2.map normPub))) }) }

/-- A publication item has all six known leaf keys present. -/
def isFullPub (p : PartialPub) : Bool :=
  p.authors.isSome && p.title.isSome && p.journal.isSome &&
  p.url.isSome && p.impact_factor.isSome && p.citations.isSome

/-- A record is normalized: `publications` is present and a dict, its
`under_review` and `by_year` keys are present, and every item already
in the list or in a year bucket has every known leaf key present. -/
def isNormalized (d : PubData) : Bool :=
  match d.publications with
  | some (.dict s) =>
    (match s.under_review with
     | some l => l.all isFullPub
     | none => false) &&
    (match s.by_year with
     | some m => m.all (fun kv => kv.2.all isFullPub)
     | none => false)
  | _ => false

/-- The CV builder's load dispatch for the `cv_data.json` row
(`src/cv_builder.py` lines 182-187): the parsed payload is assigned to
the session directly — `st.session_state["data"] = json.loads(content)`
— with no normalization pass. -/
def cvBuilderLoadData (parsed : PubData) : PubData := parsed

theorem normPub_idem (p : PartialPub) : normPub (normPub p) = normPub p := rfl

theorem map_normPub_idem (l : List PartialPub) :
    (l.map normPub).map normPub = l.map normPub := by
  simp only [List.map_map]
  exact List.map_congr_left fun a _ => rfl

/-- Claim C5: normalization is idempotent — for every partial record `r`,
`normalize_publications (normalize_publications r) = normalize_publications r`. -/
theorem normalize_publications_idem (r : PubData) :
    normalize_publications (normalize_publications r) =
      normalize_publications r := by
  cases r with
  | mk pubs lu =>
    simp only [normalize_publications, Option.getD_some, PubData.mk.injEq,
      Option.some.injEq, PubsField.dict.injEq, PubSection.mk.injEq]
    refine ⟨⟨map_normPub_idem _, ?_⟩, trivial⟩
    simp only [List.map_map]
    refine List.map_congr_left fun a _ => ?_
    show (a.1, (a.2.map normPub).map normPub) = (a.1, a.2.map normPub)
    rw [map_normPub_idem]

/-- Every record is normalized after the normalization pass: all known
sections of the publication schema exist with their default shapes and
every item present in a list or bucket has all leaf keys. -/
theorem normalize_publications_isNormalized (r : PubData) :
    isNormalized (normalize_publications r) = true := by
  cases r with
  | mk pubs lu =>
    simp only [normalize_publications, isNormalized, Bool.and_eq_true,
      List.all_eq_true]
    refine ⟨fun p hp => ?_, fun kv hkv => ?_⟩
    · obtain ⟨q, _, rfl⟩ := List.mem_map.mp hp
      rfl
    · obtain ⟨kw, _, rfl⟩ := List.mem_map.mp hkv
      simp only [List.all_eq_true]
      intro p hp
      obtain ⟨q, _, rfl⟩ := List.mem_map.mp hp
      rfl

/-- Claim C2, counterexample: on the CV builder's decode path the parsed
record is used as-is — loading a record with no `publications` section
leaves that known section absent, while the normalization pass would
have supplied it.  So not every decode path normalizes. -/
theorem cvBuilderLoad_no_normalization :
    (cvBuilderLoadData { publications := none, last_updated := none
                       }).publications = none ∧
      (normalize_publications { publications := none, last_updated := none
                              }).publications ≠ none ∧
      isNormalized (cvBuilderLoadData { publications := none
                                        last_updated := none }) = false := by
  refine ⟨rfl, ?_, rfl⟩
  simp [normalize_publications]

/-- Claim C2 (amended): the publication-manager decode paths
(`publication_manager_updated.py` line 131, `publication_manager_mwe.py`
line 99) normalize the parsed record before use, so every known section
of the publication schema exists with its default shape and every known
leaf field is present on every item already in a list or bucket; the CV
builder's decode path (`cv_builder.py` line 185) assigns the parsed
record to the session without normalization. -/
theorem decode_paths_normalization (r : PubData) :
    isNormalized (normalize_publications r) = true ∧
      cvBuilderLoadData r = r :=
  ⟨normalize_publications_isNormalized r, rfl⟩

/-- Encode an optional leaf key: present keys become a string field,
absent keys are omitted, exactly as `json.dumps` omits dict keys that
were never set. -/
def optField (k : String) : Option String → List (String × JVal)
  | none => []
  | some s => [(k, .jstr s)]

/-- The JSON value `json.dumps` produces for a publication dict.  The
serialized key order follows the dict's insertion history; since
`json.loads` rebuilds a dict and Python dict equality ignores key
order, we emit the canonical order. -/
def encodePub (p : PartialPub) : JVal :=
  .jobj (optField "authors" p.authors ++ optField "title" p.title ++
         optField "journal" p.journal ++ optField "url" p.url ++
         optField "impact_factor" p.impact_factor ++
         optField "citations" p.citations)

/-- The JSON value for the `publications` sub-dict. -/
def encodeSection (s : PubSection) : JVal :=
  .jobj ((match s.under_review with
          | none => []
          | some l => [("under_review", .jarr (l.map encodePub))]) ++
         (match s.by_year with
          | none => []
          | some m =>
            [("by_year",
              .jobj (m.map fun kv => (kv.1, .jarr (kv.2.map encodePub))))]))

/-- The JSON value `json.dumps(st.session_state["data"], indent=4)`
transmits for the record
(`src/miscellaneous/publication_manager_updated.py` lines 287-294). -/
def encodeData (d : PubData) : JVal :=
  .jobj ((match d.publications with
          | none => []
          | some (.dict s) => [("publications", encodeSection s)]
          | some (.other v) => [("publications", v)]) ++
         (match d.last_updated with
          | none => []
          | some s => [("last_updated", .jstr s)]))

/-- Read an optional string-valued key from a parsed object: absent is
tolerated (`some none`), a present string is read, any other value is
outside the record model and fails the parse. -/
def getStrField (fs : List (String × JVal)) (k : String) :
    Option (Option String) :=
  match fs.lookup k with
  | none => some none
  | some (.jstr s) => some (some s)
  | some _ => none

/-- Rebuild a publication dict from its parsed JSON object. -/
def parsePub : JVal → Option PartialPub
  | .jobj fs =>
    match getStrField fs "authors", getStrField fs "title",
        getStrField fs "journal", getStrField fs "url",
        getStrField fs "impact_factor", getStrField fs "citations" with
    | some a, some t, some j, some u, some im, some c =>
      some ⟨a, t, j, u, im, c⟩
    | _, _, _, _, _, _ => none
  | _ => none

/-- Rebuild one list of publication dicts. -/
def parseBucket : JVal → Option (List PartialPub)
  | .jarr xs => xs.mapM parsePub
  | _ => none

/-- Rebuild the `by_year` map (iteration order preserved). -/
def parseByYear : JVal → Option (List (String × List PartialPub))
  | .jobj fs => fs.mapM fun kv => (parseBucket kv.2).map fun l => (kv.1, l)
  | _ => none

/-- Rebuild the `publications` sub-dict from a parsed JSON object. -/
def parseSection (fs : List (String × JVal)) : Option PubSection :=
  match (match fs.lookup "under_review" with
         | none => some none
         | some v => (parseBucket v).map some),
      (match fs.lookup "by_year" with
       | none => some none
       | some v => (parseByYear v).map some) with
  | some u, some b => some ⟨u, b⟩
  | _, _ => none

/-- Rebuild the record from the parsed JSON value: a present
`publications` key that is an object becomes the dict case, any other
present value the non-dict case, mirroring the
`isinstance(data['publications'], dict)` test that follows parsing. -/
def parseData : JVal → Option PubData
  | .jobj fs =>
    match (match fs.lookup "publications" with
           | none => some none
           | some (.jobj gs) => (parseSection gs).map fun s => some (.dict s)
           | some v => some (some (.other v))),
        getStrField fs "last_updated" with
    | some p, some l => some ⟨p, l⟩
    | _, _ => none
  | _ => none

/-- The decode path of the publication manager
(`src/miscellaneous/publication_manager_updated.py` lines 129-131):
`json.loads` followed by `normalize_publications`. -/
def decodeData (v : JVal) : Option PubData :=
  (parseData v).map normalize_publications

theorem parsePub_encodePub (p : PartialPub) (h : isFullPub p = true) :
    parsePub (encodePub p) = some p := by
  obtain ⟨a, t, j, u, im, c⟩ := p
  simp only [isFullPub, Bool.and_eq_true, Option.isSome_iff_exists] at h
  obtain ⟨⟨⟨⟨⟨⟨a', ha⟩, t', ht⟩, j', hj⟩, u', hu⟩, im', him⟩, c', hc⟩ := h
  subst ha ht hj hu him hc
  rfl

theorem normPub_of_full (p : PartialPub) (h : isFullPub p = true) :
    normPub p = p := by
  obtain ⟨a, t, j, u, im, c⟩ := p
  simp only [isFullPub, Bool.and_eq_true, Option.isSome_iff_exists] at h
  obtain ⟨⟨⟨⟨⟨⟨a', ha⟩, t', ht⟩, j', hj⟩, u', hu⟩, im', him⟩, c', hc⟩ := h
  subst ha ht hj hu him hc
  rfl

theorem parseBucket_encode (l : List PartialPub)
    (h : l.all isFullPub = true) :
    parseBucket (.jarr (l.map encodePub)) = some l := by
  simp only [List.all_eq_true] at h
  simp only [parseBucket]
  induction l with
  | nil => rfl
  | cons p rest ih =>
    simp only [List.map_cons, List.mapM_cons,
      parsePub_encodePub p (h p (List.mem_cons_self p rest)),
      ih fun x hx => h x (List.mem_cons_of_mem p hx)]
    rfl

theorem parseByYear_encode (m : List (String × List PartialPub))
    (h : m.all (fun kv => kv.2.all isFullPub) = true) :
    parseByYear
        (.jobj (m.map fun kv => (kv.1, .jarr (kv.2.map encodePub)))) =
      some m := by
  simp only [List.all_eq_true] at h
  simp only [parseByYear]
  induction m with
  | nil => rfl
  | cons kv rest ih =>
    have hb : parseBucket (.jarr (kv.2.map encodePub)) = some kv.2 :=
      parseBucket_encode kv.2
        (List.all_eq_true.mpr (h kv (List.mem_cons_self kv rest)))
    have hr := ih fun x hx => h x (List.mem_cons_of_mem kv hx)
    simp only [List.map_cons, List.mapM_cons, hb, hr]
    rfl

theorem normalize_of_isNormalized (r : PubData) (h : isNormalized r = true) :
    normalize_publications r = r := by
  obtain ⟨pubs, lu⟩ := r
  cases pubs with
  | none => simp [isNormalized] at h
  | some pf =>
    cases pf with
    | other v => simp [isNormalized] at h
    | dict s =>
      obtain ⟨ur, byr⟩ := s
      cases ur with
      | none => simp [isNormalized] at h
      | some l =>
        cases byr with
        | none => simp [isNormalized] at h
        | some m =>
          simp only [isNormalized, Bool.and_eq_true, List.all_eq_true] at h
          obtain ⟨h1, h2⟩ := h
          simp only [normalize_publications, Option.getD_some,
            PubData.mk.injEq, Option.some.injEq, PubsField.dict.injEq,
            PubSection.mk.injEq]
          refine ⟨⟨?_, ?_⟩, trivial⟩
          · calc l.map normPub = l.map id :=
                  List.map_congr_left fun x hx => normPub_of_full x (h1 x hx)
              _ = l := List.map_id l
          · calc (m.map fun kv => (kv.1, kv.2.map normPub)) = m.map id := by
                  refine List.map_congr_left fun kv hkv => ?_
                  have : kv.2.map normPub = kv.2 := by
                    calc kv.2.map normPub = kv.2.map id :=
                          List.map_congr_left fun x hx =>
                            normPub_of_full x (h2 kv hkv x hx)
                      _ = kv.2 := List.map_id kv.2
                  simp [this]
              _ = m := List.map_id m

theorem parseData_encodeData (r : PubData) (h : isNormalized r = true) :
    parseData (encodeData r) = some r := by
  obtain ⟨pubs, lu⟩ := r
  cases pubs with
  | none => simp [isNormalized] at h
  | some pf =>
    cases pf with
    | other v => simp [isNormalized] at h
    | dict s =>
      obtain ⟨ur, byr⟩ := s
      cases ur with
      | none => simp [isNormalized] at h
      | some l =>
        cases byr with
        | none => simp [isNormalized] at h
        | some m =>
          simp only [isNormalized, Bool.and_eq_true] at h
          obtain ⟨h1, h2⟩ := h
          have hb := parseBucket_encode l h1
          have hy := parseByYear_encode m h2
          cases lu with
          | none =>
            simp [encodeData, encodeSection, parseData, parseSection,
              getStrField, List.lookup, hb, hy]
          | some t =>
            simp [encodeData, encodeSection, parseData, parseSection,
              getStrField, List.lookup, hb, hy]

/-- Claim C6: JSON round-trip — for every normalized record `r`, the
decode path (parse of the encoded value, then the normalization pass)
yields `normalize_publications r`, which equals `r` itself.  The text
layer (`json.dumps` / `json.loads`, Python standard library) is
modelled by the JSON value it transmits. -/
theorem decode_encode_roundtrip (r : PubData) (h : isNormalized r = true) :
    decodeData (encodeData r) = some (normalize_publications r) ∧
      normalize_publications r = r := by
  refine ⟨?_, normalize_of_isNormalized r h⟩
  simp [decodeData, parseData_encodeData r h]

/-- A concrete normalized record used as the round-trip witness input:
one publication under review and one year bucket, all leaf keys
present. -/
def sampleNormalizedRecord : PubData :=
  { publications := some (.dict
      { under_review :=
          some [⟨some "A", some "T", some "J", some "u", some "1", some "2"⟩]
        by_year :=
          some [("2024",
            [⟨some "B", some "S", some "K", some "v", some "3", some "4"⟩])] })
    last_updated := some "2024-01-01T00:00:00" }

theorem decode_encode_roundtrip_witness :
    isNormalized sampleNormalizedRecord = true ∧
      (decodeData (encodeData sampleNormalizedRecord) =
          some (normalize_publications sampleNormalizedRecord) ∧
        normalize_publications sampleNormalizedRecord =
          sampleNormalizedRecord) :=
  ⟨rfl, decode_encode_roundtrip sampleNormalizedRecord rfl⟩

/-- The opening brace character, U+007B. -/
def lbrace : Char := Char.ofNat 0x7b

/-- The closing brace character, U+007D. -/
def rbrace : Char := Char.ofNat 0x7d

/-- The two-character string of an opening and a closing brace. -/
def braces : String := String.singleton lbrace ++ String.singleton rbrace

/-- Python `str.replace` specialised to a single-character needle (every
needle in `escape_latex` is a single character): each occurrence of `c`
in `s` is replaced by `r`.  Within one `replace` call the replacement
text is never rescanned. -/
def replaceChar (s : String) (c : Char) (r : String) : String :=
  String.join (s.data.map fun a => if a = c then r else String.singleton a)

/-- `escape_latex` (`src/cv_builder.py` lines 16-32): the chained
`text.replace(char, escaped)` calls over the `special_chars` dict in its
insertion order — ampersand, percent, hash, underscore, open brace,
close brace, tilde, caret, backslash — each applied to the result of
the previous replacement. -/
def escape_latex (text : String) : String :=
  let t := replaceChar text '&' "\\&"
  let t := replaceChar t '%' "\\%"
  let t := replaceChar t '#' "\\#"
  let t := replaceChar t '_' "\\_"
  let t := replaceChar t lbrace ("\\" ++ String.singleton lbrace)
  let t := replaceChar t rbrace ("\\" ++ String.singleton rbrace)
  let t := replaceChar t '~' ("\\textasciitilde" ++ braces)
  let t := replaceChar t '^' ("\\textasciicircum" ++ braces)
  replaceChar t '\\' ("\\textbackslash" ++ braces)

/-- Claim C1: evaluation at the spec example input shows the escaping
transform does not escape each special character exactly once.  The
backslash replacement runs last, over text already containing the
backslashes the earlier substitutions inserted, so every inserted
escape is torn apart: the output contains raw, unescaped percent,
ampersand, underscore and brace characters each preceded by a spurious
textbackslash token, and differs from the claimed single-escape
rendering. -/
theorem escape_latex_failing_eval :
    escape_latex "100% & co_author \x7bx\x7d" =
        "100\\textbackslash\x7b\x7d% \\textbackslash\x7b\x7d& co\\textbackslash\x7b\x7d_author \\textbackslash\x7b\x7d\x7bx\\textbackslash\x7b\x7d\x7d" ∧
      escape_latex "100% & co_author \x7bx\x7d" ≠
        "100\\% \\& co\\_author \\\x7bx\\\x7d" := by
  exact ⟨rfl, by decide⟩

/-- Python regex class `\w` for `str` patterns: Unicode word characters,
that is, characters alphanumeric in the sense of `str.isalnum`, plus
the underscore.  The model is exact for every code point up to U+00FF
(Basic Latin and Latin-1 Supplement — the alphabet of every input in
this development); Python additionally counts alphanumeric code points
above U+00FF as word characters. -/
def pyWordChar (c : Char) : Bool :=
  ('a' ≤ c && c ≤ 'z') || ('A' ≤ c && c ≤ 'Z') || ('0' ≤ c && c ≤ '9') ||
  c = '_' ||
  (let v := c.toNat
   v = 0xAA || v = 0xB2 || v = 0xB3 || v = 0xB5 || v = 0xB9 || v = 0xBA ||
   v = 0xBC || v = 0xBD || v = 0xBE ||
   (0xC0 ≤ v && v ≤ 0xD6) || (0xD8 ≤ v && v ≤ 0xF6) ||
   (0xF8 ≤ v && v ≤ 0xFF))

/-- The regex class `[\w\-]`: a hostname-label character. -/
def hostChar (c : Char) : Bool := pyWordChar c || c = '-'

/-- The regex class `[/#?]`. -/
def sepChar (c : Char) : Bool := c = '/' || c = '#' || c = '?'

/-- The regex tail `.*$` under `re.match` semantics: `.` matches any
character but a newline, `$` matches at the end of the string or just
before a newline that ends the string.  A suffix matches iff no newline
stands before its final character. -/
def dotStarEnd : List Char → Bool
  | [] => true
  | [_] => true
  | c :: rest => (c != '\n') && dotStarEnd rest

/-- The regex tail `[/#?]?.*$`: either skip the optional separator, or
consume one separator character and match `.*$` on the rest. -/
def tailOK (l : List Char) : Bool :=
  dotStarEnd l ||
  (match l with
   | c :: rest => sepChar c && dotStarEnd rest
   | [] => false)

mutual
/-- The regex part after the first character of the host,
`[\w\-]*(\.[\w\-]+)+[/#?]?.*$`, as the backtracking search `re.match`
performs it.  `inLabel seenDot l` is the state in which at least one
character of the current label has been consumed and `seenDot` records
whether a complete `\.[\w\-]+` group has been consumed yet; at each
position the regex may (i) end the host here and match the
optional-separator tail — only legal once a dot-group exists, (ii)
start another dot-label group, or (iii) extend the current label. -/
def inLabel (seenDot : Bool) : List Char → Bool
  | [] => seenDot
  | c :: rest =>
    (seenDot && tailOK (c :: rest)) ||
    ((c == '.') && startLabel rest) ||
    (hostChar c && inLabel seenDot rest)
/-- The mandatory first character of a `[\w\-]+` label, then the
continuation of the host match. -/
def startLabel : List Char → Bool
  | [] => false
  | c :: rest => hostChar c && inLabel true rest
end

/-- The regex body `[\\w\\-]+(\\.[\\w\\-]+)+[/#?]?.*$` anchored at the
given position: a non-empty first label, then at least one dot-label
group, then the tail. -/
def hostFrom (l : List Char) : Bool :=
  match l with
  | [] => false
  | c :: rest => hostChar c && inLabel false rest

/-- The full anchored pattern `^(https?://)?[\\w\\-]+(\\.[\\w\\-]+)+[/#?]?.*$`:
the optional scheme group is tried with `https://`, with `http://`, and
absent. -/
def matchFrom (l : List Char) : Bool :=
  (if List.isPrefixOf "https://".data l then hostFrom (l.drop 8)
   else false) ||
  (if List.isPrefixOf "http://".data l then hostFrom (l.drop 7)
   else false) ||
  hostFrom l

/-- `validate_url` (`src/cv_builder.py` lines 35-37): an empty string is
accepted outright (`if url else True` — the empty string is falsy);
otherwise the anchored `re.match` against
`^(https?://)?[\\w\\-]+(\\.[\\w\\-]+)+[/#?]?.*$` decides. -/
def validate_url (url : String) : Bool :=
  match url.data with
  | [] => true
  | c :: rest => matchFrom (c :: rest)

/-- Claim C4, counterexample: the regex class `\w` in a Python `str`
pattern matches Unicode word characters, not only ASCII ones, so a
host containing the non-ASCII letter U+00E4 is accepted — the claim
that every string whose host contains non-ASCII characters is rejected
fails. -/
theorem validate_url_accepts_nonascii :
    validate_url "exämple.com" = true ∧
      ('ä' ∈ "exämple.com".data ∧ 0x80 ≤ 'ä'.toNat) := by
  exact ⟨by decide, by decide, by decide⟩

/-- Claim C4 (amended): the URL-shape check accepts the empty string,
https-prefixed and bare dotted hosts, and rejects undotted or
structurally malformed inputs; host-label characters are Unicode word
characters or hyphens, so non-ASCII letters in labels are accepted
rather than rejected. -/
theorem validate_url_examples :
    validate_url "" = true ∧
      validate_url "https://example.com/page" = true ∧
      validate_url "example.org" = true ∧
      validate_url "not a url" = false ∧
      validate_url "http://" = false ∧
      validate_url "exämple.com" = true := by
  exact ⟨by decide, by decide, by decide, by decide, by decide, by decide⟩

/-- Claim C10, counterexample: acceptance does not depend only on a
valid prefix of the input — `"example.com"` is itself accepted, yet
appending a newline followed by another character yields a rejected
string, because the regex tail `.*$` cannot cross a newline that is
not the final character. -/
theorem validate_url_rejects_newline_tail :
    validate_url "example.com" = true ∧
      validate_url "example.com\nx" = false := by
  exact ⟨by decide, by decide⟩

theorem dotStarEnd_cons (c : Char) (hc : (c != '\n') = true) (t : List Char)
    (h : dotStarEnd t = true) : dotStarEnd (c :: t) = true := by
  cases t with
  | nil => rfl
  | cons b rest =>
    simp only [dotStarEnd, hc, Bool.true_and]
    exact h

/-- A hostname label as the regex sees one: a non-empty run of
`[\w\-]` characters. -/
def hostLabel (l : List Char) : Bool := !l.isEmpty && l.all hostChar

theorem inLabel_true_of_dotStarEnd (t : List Char)
    (h : dotStarEnd t = true) : inLabel true t = true := by
  cases t with
  | nil => rfl
  | cons c rest =>
    have htail : tailOK (c :: rest) = true := by simp [tailOK, h]
    rw [inLabel, htail]
    rfl

theorem hostChar_ne_newline (c : Char) (h : hostChar c = true) :
    (c != '\n') = true := by
  rw [bne_iff_ne]
  intro he
  rw [he] at h
  exact absurd h (by decide)

theorem dotStarEnd_append (l : List Char)
    (hl : ∀ c ∈ l, (c != '\n') = true) (t : List Char)
    (ht : dotStarEnd t = true) : dotStarEnd (l ++ t) = true := by
  induction l with
  | nil => simpa using ht
  | cons c rest ih =>
    have h2 := ih fun d hd => hl d (List.mem_cons_of_mem c hd)
    exact dotStarEnd_cons c (hl c (List.mem_cons_self c rest)) _ h2

theorem inLabel_false_walk (lab : List Char) (hall : lab.all hostChar = true)
    (rest : List Char) (h : inLabel false rest = true) :
    inLabel false (lab ++ rest) = true := by
  induction lab with
  | nil => simpa using h
  | cons c lab2 ih =>
    rw [List.all_cons, Bool.and_eq_true] at hall
    have h2 := ih hall.2
    show inLabel false (c :: (lab2 ++ rest)) = true
    rw [inLabel, hall.1, h2]
    simp

theorem hostFrom_accepts (lab l1 rest : List Char)
    (hlab : hostLabel lab = true) (hl1 : hostLabel l1 = true)
    (hrest : dotStarEnd rest = true) :
    hostFrom (lab ++ '.' :: (l1 ++ rest)) = true := by
  cases lab with
  | nil => simp [hostLabel] at hlab
  | cons c lab2 =>
    simp only [hostLabel, List.isEmpty_cons, Bool.not_false, List.all_cons,
      Bool.true_and, Bool.and_eq_true] at hlab
    obtain ⟨hc, hall⟩ := hlab
    cases l1 with
    | nil => simp [hostLabel] at hl1
    | cons c1 l12 =>
      simp only [hostLabel, List.isEmpty_cons, Bool.not_false, List.all_cons,
        Bool.true_and, Bool.and_eq_true] at hl1
      obtain ⟨hc1, hall1⟩ := hl1
      have hin1 : inLabel true (l12 ++ rest) = true :=
        inLabel_true_of_dotStarEnd _
          (dotStarEnd_append l12
            (fun d hd => hostChar_ne_newline d
              (List.all_eq_true.mp hall1 d hd)) rest hrest)
      have hstart : startLabel ((c1 :: l12) ++ rest) = true := by
        show (hostChar c1 && inLabel true (l12 ++ rest)) = true
        rw [hc1, hin1]
        rfl
      have hdot : inLabel false ('.' :: ((c1 :: l12) ++ rest)) = true := by
        rw [inLabel, hstart]
        rfl
      have hwalk : inLabel false (lab2 ++ '.' :: ((c1 :: l12) ++ rest)) =
          true := inLabel_false_walk lab2 hall _ hdot
      show (hostChar c && inLabel false
        (lab2 ++ '.' :: ((c1 :: l12) ++ rest))) = true
      rw [hc, hwalk]
      rfl

theorem isPrefixOf_self_append (l r : List Char) :
    List.isPrefixOf l (l ++ r) = true := by
  induction l with
  | nil => simp [List.isPrefixOf]
  | cons c cl ih => simp [List.isPrefixOf, ih]

theorem matchFrom_of_hostFrom (l : List Char) (h : hostFrom l = true) :
    matchFrom l = true := by
  simp [matchFrom, h]

theorem matchFrom_http (rest : List Char) (h : hostFrom rest = true) :
    matchFrom ("http://".data ++ rest) = true := by
  have hpre : List.isPrefixOf "http://".data ("http://".data ++ rest) =
      true := isPrefixOf_self_append _ _
  have hdrop : ("http://".data ++ rest).drop 7 = rest :=
    List.drop_left "http://".data rest
  simp [matchFrom, hpre, hdrop, h]

theorem matchFrom_https (rest : List Char) (h : hostFrom rest = true) :
    matchFrom ("https://".data ++ rest) = true := by
  have hpre : List.isPrefixOf "https://".data ("https://".data ++ rest) =
      true := isPrefixOf_self_append _ _
  have hdrop : ("https://".data ++ rest).drop 8 = rest :=
    List.drop_left "https://".data rest
  simp [matchFrom, hpre, hdrop, h]

/-- Claim C10 (amended): for every string that starts with an optional
`http://` or `https://` prefix followed by a dotted host — a non-empty
`[\w\-]` label and at least one further dot-separated non-empty label
— the check accepts it whatever characters follow, provided no newline
stands before the final character of the continuation (the regex tail
`.*$` cannot cross a non-trailing newline); in particular
`"example.com not a url"` is accepted. -/
theorem validate_url_tail_insensitive (scheme lab : List Char)
    (labs : List (List Char)) (t : List Char)
    (hs : scheme = [] ∨ scheme = "http://".data ∨ scheme = "https://".data)
    (hlab : hostLabel lab = true) (hne : labs ≠ [])
    (hall : labs.all hostLabel = true) (ht : dotStarEnd t = true) :
    validate_url (String.mk (scheme ++
      ((lab ++ labs.flatMap fun l => '.' :: l) ++ t))) = true := by
  obtain ⟨l1, more, rfl⟩ := List.exists_cons_of_ne_nil hne
  rw [List.all_cons, Bool.and_eq_true] at hall
  obtain ⟨hl1, hmore⟩ := hall
  have hnl : ∀ c ∈ (more.flatMap fun l => '.' :: l), (c != '\n') = true := by
    intro c hc
    rw [List.mem_flatMap] at hc
    obtain ⟨l, hlmem, hcl⟩ := hc
    rcases List.mem_cons.mp hcl with rfl | hcl2
    · decide
    · have hhl : hostLabel l = true := List.all_eq_true.mp hmore l hlmem
      simp only [hostLabel, Bool.and_eq_true, List.all_eq_true] at hhl
      exact hostChar_ne_newline c (hhl.2 c hcl2)
  have hrest : dotStarEnd ((more.flatMap fun l => '.' :: l) ++ t) = true :=
    dotStarEnd_append _ hnl t ht
  have hhost : hostFrom (lab ++ '.' :: (l1 ++
      ((more.flatMap fun l => '.' :: l) ++ t))) = true :=
    hostFrom_accepts lab l1 _ hlab hl1 hrest
  have hshape : (lab ++ ((l1 :: more).flatMap fun l => '.' :: l)) ++ t =
      lab ++ '.' :: (l1 ++ ((more.flatMap fun l => '.' :: l) ++ t)) := by
    simp [List.flatMap_cons, List.append_assoc]
  rcases hs with rfl | rfl | rfl
  · rw [List.nil_append, hshape]
    cases lab with
    | nil => simp [hostLabel] at hlab
    | cons c lab2 => exact matchFrom_of_hostFrom _ hhost
  · rw [hshape]
    exact matchFrom_http _ hhost
  · rw [hshape]
    exact matchFrom_https _ hhost

/-- Concrete instantiation of the amended tail-insensitivity statement:
no scheme, host labels `example` and `com`, continuation
`" not a url"` — the string `"example.com not a url"`. -/
theorem validate_url_tail_insensitive_witness :
    validate_url (String.mk (([] : List Char) ++
        (("example".data ++ ["com".data].flatMap fun l => '.' :: l) ++
          " not a url".data))) = true ∧
      String.mk (([] : List Char) ++
        (("example".data ++ ["com".data].flatMap fun l => '.' :: l) ++
          " not a url".data)) = "example.com not a url" :=
  ⟨validate_url_tail_insensitive [] "example".data ["com".data]
      " not a url".data (Or.inl rfl) (by decide) (by decide) (by decide)
      (by decide),
    rfl⟩

/-- The `personal_info` section of `default_data`
(`src/cv_builder.py` line 144). -/
structure PersonalInfo where
  name : String
  nationality : String
  dob : String
  current_address : String
  permanent_address : String
  email : String

/-- The `languages` section (`src/cv_builder.py` line 145). -/
structure Languages where
  mother_tongue : String
  english_listening : String
  english_reading : String
  english_speaking : String
  english_writing : String
  hindi_listening : String
  hindi_reading : String
  hindi_speaking : String
  hindi_writing : String

/-- A `professional_experience` entry (`src/cv_builder.py` line 228). -/
structure Experience where
  duration : String
  position : String
  employer : String
  activity : String

/-- An `education` entry (`src/cv_builder.py` line 243). -/
structure EducationEntry where
  duration : String
  qualification : String
  thesis_title : String
  organization : String

/-- A publication record (`src/cv_builder.py` lines 259-261), all leaf
fields present. -/
structure Publication where
  authors : String
  title : String
  journal : String
  url : String
  impact_factor : String
  citations : String

/-- The `publications` section: `under_review` list and `by_year`
year-keyed map (`src/cv_builder.py` line 148). -/
structure Publications where
  under_review : List Publication
  by_year : List (String × List Publication)

/-- A `conference_proceedings` record (`src/cv_builder.py`
lines 304-306). -/
structure Proceeding where
  authors : String
  title : String
  venue : String
  url : String
  citations : String

/-- The `book` section (`src/cv_builder.py` line 150). -/
structure Book where
  authors : String
  title : String
  publisher : String
  year : String
  isbn : String

/-- An `academic_activities.conferences` entry (`src/cv_builder.py`
lines 332-334). -/
structure ConfActivity where
  date : String
  role : String
  event : String
  url : String

/-- An `academic_activities.talks` entry (`src/cv_builder.py`
lines 346-348). -/
structure Talk where
  date : String
  title : String
  event : String
  url : String

/-- An `academic_activities.editorial` entry (`src/cv_builder.py`
lines 360-362). -/
structure EditorialWork where
  date : String
  role : String
  journal : String
  url : String

/-- An `academic_activities.profiles` entry (`src/cv_builder.py`
lines 374-376). -/
structure Profile where
  name : String
  url : String

/-- An `academic_activities.reviews` entry (`src/cv_builder.py`
lines 386-388). -/
structure ReviewEntry where
  year : String
  count : String

/-- The `academic_activities` section (`src/cv_builder.py` line 151);
`journals` is a list of bare strings. -/
structure AcademicActivities where
  conferences : List ConfActivity
  talks : List Talk
  editorial : List EditorialWork
  profiles : List Profile
  reviews : List ReviewEntry
  journals : List String

/-- A `grants_awards.grants` entry (`src/cv_builder.py`
lines 408-410). -/
structure Grant where
  duration : String
  agency : String
  category : String
  number : String
  amount : String

/-- A `grants_awards.awards` entry (`src/cv_builder.py`
lines 423-425). -/
structure Award where
  year : String
  description : String

/-- The `grants_awards` section (`src/cv_builder.py` line 152). -/
structure GrantsAwards where
  grants : List Grant
  awards : List Award

/-- A `skills.softwares` entry (`src/cv_builder.py` line 440). -/
structure Software where
  name : String
  url : String

/-- The `skills` section (`src/cv_builder.py` line 153). -/
structure Skills where
  h_index : String
  researchgate_score : String
  programming_languages : String
  softwares : List Software
  parallel_computing : String
  experiments : String

/-- A `memberships` entry (`src/cv_builder.py` lines 452-454). -/
structure MembershipEntry where
  name : String
  url : String
  details : String

/-- The normalized CV record: the shape of `default_data`
(`src/cv_builder.py` lines 143-156), every known key present. -/
structure CVRecord where
  personal_info : PersonalInfo
  languages : Languages
  professional_experience : List Experience
  education : List EducationEntry
  publications : Publications
  conference_proceedings : List (String × List Proceeding)
  book : Book
  academic_activities : AcademicActivities
  grants_awards : GrantsAwards
  skills : Skills
  memberships : List MembershipEntry
  last_updated : String

/-- One URL rule of `validate_data`: a message is emitted only when the
URL field is non-empty (truthy) and fails `validate_url`. -/
def urlError (context : String) (url : String) : List String :=
  if url ≠ "" && !(validate_url url) then
    ["Invalid URL in " ++ context ++ ": " ++ url]
  else []

/-- `validate_data` (`src/cv_builder.py` lines 40-72): every rule is
evaluated — nothing short-circuits — and each violation appends one
message string to the returned list, in source order: required name,
required mother tongue, then the URL-bearing collections. -/
def validate_data (data : CVRecord) : List String :=
  (if data.personal_info.name = "" then ["Full Name is required."]
   else []) ++
  (if data.languages.mother_tongue = "" then ["Mother Tongue is required."]
   else []) ++
  (data.publications.under_review.flatMap fun pub =>
    urlError "Under Review Publication" pub.url) ++
  (data.publications.by_year.flatMap fun kv =>
    kv.2.flatMap fun pub =>
      urlError ("Publication (Year " ++ kv.1 ++ ")") pub.url) ++
  (data.conference_proceedings.flatMap fun kv =>
    kv.2.flatMap fun conf =>
      urlError ("Conference Proceeding (Year " ++ kv.1 ++ ")") conf.url) ++
  (data.academic_activities.profiles.flatMap fun profile =>
    urlError "Scholarly Profile" profile.url) ++
  (data.academic_activities.talks.flatMap fun talk =>
    urlError "Invited Talk" talk.url) ++
  (data.academic_activities.editorial.flatMap fun edit =>
    urlError "Editorial Work" edit.url) ++
  (data.memberships.flatMap fun membership =>
    urlError "Membership" membership.url) ++
  (data.skills.softwares.flatMap fun software =>
    urlError "Software" software.url)

/-- `default_data` (`src/cv_builder.py` lines 143-156) with the two
mandatory fields filled: name `"A"`, mother tongue `"B"`, everything
else at its default. -/
def minimalRecord : CVRecord where
  personal_info := ⟨"A", "", "", "", "", ""⟩
  languages := ⟨"B", "C2 (proficient)", "C2 (proficient)",
    "C2 (proficient)", "C2 (proficient)", "C2 (proficient)",
    "C2 (proficient)", "C2 (proficient)", "C2 (proficient)"⟩
  professional_experience := []
  education := []
  publications := ⟨[], []⟩
  conference_proceedings := []
  book := ⟨"", "", "", "", ""⟩
  academic_activities := ⟨[], [], [], [], [], []⟩
  grants_awards := ⟨[], []⟩
  skills := ⟨"", "", "", [], "", ""⟩
  memberships := []
  last_updated := ""

/-- `default_data` itself: both mandatory fields empty. -/
def emptyNameRecord : CVRecord :=
  { minimalRecord with
      personal_info := ⟨"", "", "", "", "", ""⟩
      languages := { minimalRecord.languages with mother_tongue := "" } }

/-- Claim C3: the validator is a total function into a list of message
strings (all problems are data — the embedding has no exception path,
mirroring that the source raises nothing on a normalized record), no
rule short-circuits another (an empty name and an empty mother tongue
are reported together), an empty name always yields the message
"Full Name is required.", and the minimal valid record yields the
empty list. -/
theorem validate_data_spec (d : CVRecord) :
    (d.personal_info.name = "" →
      "Full Name is required." ∈ validate_data d) ∧
      (d.personal_info.name = "" → d.languages.mother_tongue = "" →
        "Full Name is required." ∈ validate_data d ∧
          "Mother Tongue is required." ∈ validate_data d) ∧
      validate_data minimalRecord = [] := by
  refine ⟨?_, ?_, by decide⟩
  · intro h
    simp [validate_data, h]
  · intro h1 h2
    constructor <;> simp [validate_data, h1, h2]

/-- Concrete instantiation of the validator contract: on the default
record (both mandatory fields empty) both messages are reported
together, and the minimal record validates cleanly. -/
theorem validate_data_spec_witness :
    ("Full Name is required." ∈ validate_data emptyNameRecord ∧
        "Mother Tongue is required." ∈ validate_data emptyNameRecord) ∧
      validate_data minimalRecord = [] :=
  ⟨(validate_data_spec emptyNameRecord).2.1 rfl rfl,
    (validate_data_spec emptyNameRecord).2.2⟩

/-- Python `str.isdigit` per character: true for the decimal digits and
for other Unicode digit characters.  The model is exact for every code
point up to U+00FF: there the non-decimal digit characters are the
superscripts one, two and three (U+00B9, U+00B2, U+00B3), which
`str.isdigit` accepts; further digit code points lie above U+00FF. -/
def pyIsDigit (c : Char) : Bool :=
  ('0' ≤ c && c ≤ '9') ||
  (let v := c.toNat
   v = 0xB2 || v = 0xB3 || v = 0xB9)

/-- The guard `year and year.isdigit()` (`src/cv_builder.py` lines 276
and 301): the string is truthy (non-empty) and all its characters are
digit characters. -/
def yearGuard (s : String) : Bool :=
  (!s.data.isEmpty) && s.data.all pyIsDigit

/-- The predicate the claim states for year keys, written from the
spec: a non-empty string of decimal digits (0 through 9 only).  Kept
separate from `yearGuard`, the predicate the code enforces, so the two
can be compared. -/
def isDecimalDigits (s : String) : Bool :=
  (!s.data.isEmpty) && s.data.all fun c => '0' ≤ c && c ≤ '9'

/-- Membership test `year not in d` on a dict, modelled as an
association list with unique keys in insertion order. -/
def dictContains {α : Type} (m : List (String × α)) (k : String) : Bool :=
  m.any fun kv => kv.1 == k

/-- Dict lookup `d[k]` (the key is unique): the first entry with the
key, if any. -/
def dictGet {α : Type} (m : List (String × α)) (k : String) : Option α :=
  (m.find? fun kv => kv.1 == k).map fun kv => kv.2

/-- In-place update of the bucket stored under `k` (for
`d[k].append(...)` and `d[k].pop(i)`): rewrite the unique entry with
that key, leave the dict unchanged when the key is absent. -/
def modifyBucket {α : Type} :
    List (String × α) → String → (α → α) → List (String × α)
  | [], _, _ => []
  | kv :: rest, k, f =>
    if kv.1 == k then (kv.1, f kv.2) :: rest
    else kv :: modifyBucket rest k f

/-- `del d[k]`: remove the unique entry with the key. -/
def dictDelete {α : Type} : List (String × α) → String → List (String × α)
  | [], _ => []
  | kv :: rest, k => if kv.1 == k then rest else kv :: dictDelete rest k

/-- The Add handler for a plain list collection (e.g. Add Professional
Experience, `src/cv_builder.py` lines 227-230): `append` a fresh
record at the end. -/
def listAppend {α : Type} (l : List α) (x : α) : List α := l ++ [x]

/-- The Remove handler for a plain list collection (e.g.
`src/cv_builder.py` lines 237-238): `pop(i)` deletes the record at
index `i`, shifting later records down by one.  (Python raises on an
out-of-range index; the handlers only ever pass an index of an
existing record.) -/
def listRemove {α : Type} (l : List α) (i : Nat) : List α :=
  l.take i ++ l.drop (i + 1)

/-- The Add-for-year handler (`src/cv_builder.py` lines 275-281 for
`publications.by_year`, lines 300-306 for `conference_proceedings`):
when the year input passes `year and year.isdigit()`, create the
year's bucket if absent (a fresh dict key is appended at the end,
Python dict insertion order) and append a fresh default record to it;
otherwise leave the record unchanged. -/
def addYearEntry {α : Type} (m : List (String × List α)) (year : String)
    (dflt : α) : List (String × List α) :=
  if yearGuard year then
    let m1 := if dictContains m year then m else m ++ [(year, [])]
    modifyBucket m1 year fun l => l ++ [dflt]
  else m

/-- The Remove-for-year handler (`src/cv_builder.py` lines 292-295 and
316-319): `pop(i)` the bucket's record at index `i`, then delete the
year key entirely if its bucket became empty. -/
def removeYearEntry {α : Type} (m : List (String × List α)) (year : String)
    (i : Nat) : List (String × List α) :=
  let m1 := modifyBucket m year fun l => l.take i ++ l.drop (i + 1)
  match dictGet m1 year with
  | some [] => dictDelete m1 year
  | _ => m1

/-- The fresh record appended by Add Publication for Year
(`src/cv_builder.py` lines 279-281). -/
def defaultPublication : Publication := ⟨"", "", "", "", "", ""⟩

/-- The fresh record appended by Add Conference Proceeding
(`src/cv_builder.py` lines 304-306). -/
def defaultProceeding : Proceeding := ⟨"", "", "", "", ""⟩

theorem dictGet_cons {α : Type} (kv : String × α) (rest : List (String × α))
    (k : String) :
    dictGet (kv :: rest) k =
      if kv.1 == k then some kv.2 else dictGet rest k := by
  cases h : (kv.1 == k) with
  | true => simp [dictGet, List.find?_cons_of_pos, h]
  | false => simp [dictGet, List.find?_cons_of_neg, h]

theorem dictContains_cons {α : Type} (kv : String × α)
    (rest : List (String × α)) (k : String) :
    dictContains (kv :: rest) k = ((kv.1 == k) || dictContains rest k) := by
  simp [dictContains, List.any_cons]

theorem dictGet_none_not_contains {α : Type} {m : List (String × α)}
    {k : String} (h : dictGet m k = none) : dictContains m k = false := by
  induction m with
  | nil => rfl
  | cons kv rest ih =>
    rw [dictGet_cons] at h
    rw [dictContains_cons]
    cases hkv : (kv.1 == k) with
    | true => rw [hkv] at h; simp at h
    | false =>
      rw [hkv] at h
      simp at h
      simp [ih h]

theorem dictGet_some_contains {α : Type} {m : List (String × α)}
    {k : String} {b : α} (h : dictGet m k = some b) :
    dictContains m k = true := by
  induction m with
  | nil => simp [dictGet] at h
  | cons kv rest ih =>
    rw [dictGet_cons] at h
    rw [dictContains_cons]
    cases hkv : (kv.1 == k) with
    | true => simp
    | false =>
      rw [hkv] at h
      simp at h
      simp [ih h]

theorem modifyBucket_append_fresh {α : Type} {m : List (String × α)}
    {k : String} (hc : dictContains m k = false) (b : α) (f : α → α) :
    modifyBucket (m ++ [(k, b)]) k f = m ++ [(k, f b)] := by
  induction m with
  | nil => simp [modifyBucket]
  | cons kv rest ih =>
    rw [dictContains_cons] at hc
    simp only [Bool.or_eq_false_iff] at hc
    simp [modifyBucket, hc.1, ih hc.2]

theorem dictGet_append_fresh {α : Type} {m : List (String × α)}
    {k : String} (hc : dictContains m k = false) (b : α) :
    dictGet (m ++ [(k, b)]) k = some b := by
  induction m with
  | nil => simp [dictGet]
  | cons kv rest ih =>
    rw [dictContains_cons] at hc
    simp only [Bool.or_eq_false_iff] at hc
    rw [List.cons_append, dictGet_cons, hc.1]
    simp [ih hc.2]

theorem dictDelete_append_fresh {α : Type} {m : List (String × α)}
    {k : String} (hc : dictContains m k = false) (b : α) :
    dictDelete (m ++ [(k, b)]) k = m := by
  induction m with
  | nil => simp [dictDelete]
  | cons kv rest ih =>
    rw [dictContains_cons] at hc
    simp only [Bool.or_eq_false_iff] at hc
    simp [dictDelete, hc.1, ih hc.2]

theorem dictGet_modifyBucket {α : Type} (m : List (String × α)) (k : String)
    (f : α → α) :
    dictGet (modifyBucket m k f) k = (dictGet m k).map f := by
  induction m with
  | nil => rfl
  | cons kv rest ih =>
    cases hkv : (kv.1 == k) with
    | true =>
      simp only [modifyBucket, hkv, if_true]
      rw [dictGet_cons, dictGet_cons, hkv]
      simp
    | false =>
      simp only [modifyBucket, hkv]
      rw [if_neg (by simp [hkv])]
      rw [dictGet_cons, dictGet_cons, hkv]
      simp [ih]

/-- Claim C7: appending a new entry to a collection and then removing
it restores the collection — for plain list collections the pre-append
list (hence its length) is restored; for year-keyed collections,
appending to an absent year bucket and then removing that single item
deletes the year key entirely, while appending to an existing non-empty
bucket and removing the appended item restores the bucket. -/
theorem append_remove_restores {α : Type} (l : List α) (x : α)
    (m : List (String × List Publication))
    (hfresh : dictGet m "2024" = none)
    (mb : List (String × List Publication)) (y : String)
    (b : List Publication) (hy : yearGuard y = true)
    (hb : dictGet mb y = some b) (hne : b ≠ []) :
    (listRemove (listAppend l x) l.length = l ∧
        (listRemove (listAppend l x) l.length).length = l.length) ∧
      dictGet (removeYearEntry (addYearEntry m "2024" defaultPublication)
          "2024" 0) "2024" = none ∧
      dictGet (removeYearEntry (addYearEntry mb y defaultPublication) y
          b.length) y = some b := by
  have pa : listRemove (listAppend l x) l.length = l := by
    simp [listRemove, listAppend, List.take_left, List.drop_append]
  refine ⟨⟨pa, by rw [pa]⟩, ?_, ?_⟩
  · have hguard : yearGuard "2024" = true := by decide
    have hc : dictContains m "2024" = false := dictGet_none_not_contains hfresh
    have e1 : addYearEntry m "2024" defaultPublication =
        m ++ [("2024", [defaultPublication])] := by
      simp [addYearEntry, hguard, hc, modifyBucket_append_fresh hc]
    have e2 : removeYearEntry (m ++ [("2024", [defaultPublication])])
        "2024" 0 = m := by
      simp only [removeYearEntry]
      rw [modifyBucket_append_fresh hc]
      simp only [List.take_nil, List.take_zero, List.nil_append]
      rw [dictGet_append_fresh hc]
      simp only [List.drop_succ_cons, List.drop_nil]
      exact dictDelete_append_fresh hc _
    rw [e1, e2]
    exact hfresh
  · have hcb : dictContains mb y = true := dictGet_some_contains hb
    have f1 : addYearEntry mb y defaultPublication =
        modifyBucket mb y (fun l => l ++ [defaultPublication]) := by
      simp [addYearEntry, hy, hcb]
    have f2 : dictGet (modifyBucket mb y
        (fun l => l ++ [defaultPublication])) y =
        some (b ++ [defaultPublication]) := by
      rw [dictGet_modifyBucket, hb]
      rfl
    have f3 : dictGet (modifyBucket (modifyBucket mb y
        (fun l => l ++ [defaultPublication])) y
        (fun l => l.take b.length ++ l.drop (b.length + 1))) y = some b := by
      rw [dictGet_modifyBucket, f2]
      simp [List.take_left, List.drop_append]
    rw [f1]
    simp only [removeYearEntry]
    rw [f3]
    obtain ⟨hd, tl, rfl⟩ := List.exists_cons_of_ne_nil hne
    exact f3

/-- Concrete instantiation of the append-then-remove round trip: an
empty list collection, a fresh `"2024"` bucket in an empty map, and an
existing one-item `"2020"` bucket. -/
theorem append_remove_restores_witness :
    (listRemove (listAppend ([] : List Publication) defaultPublication) 0 =
          [] ∧
        (listRemove (listAppend ([] : List Publication)
            defaultPublication) 0).length = 0) ∧
      dictGet (removeYearEntry (addYearEntry [] "2024" defaultPublication)
          "2024" 0) "2024" = none ∧
      dictGet (removeYearEntry
          (addYearEntry [("2020", [defaultPublication])] "2020"
            defaultPublication) "2020" 1) "2020" =
        some [defaultPublication] :=
  append_remove_restores [] defaultPublication [] rfl
    [("2020", [defaultPublication])] "2020" [defaultPublication]
    (by decide) rfl (List.cons_ne_nil _ _)

theorem modifyBucket_mem_keys {α : Type} {m : List (String × α)} {k : String}
    {f : α → α} {kv : String × α} (h : kv ∈ modifyBucket m k f) :
    ∃ kw ∈ m, kv.1 = kw.1 := by
  induction m with
  | nil => simp [modifyBucket] at h
  | cons kw0 rest ih =>
    by_cases hk : (kw0.1 == k) = true
    · simp only [modifyBucket, hk, if_true] at h
      rcases List.mem_cons.mp h with h | h
      · exact ⟨kw0, List.mem_cons_self kw0 rest, by rw [h]⟩
      · exact ⟨kv, List.mem_cons_of_mem kw0 h, rfl⟩
    · simp only [modifyBucket, hk, if_false] at h
      rcases List.mem_cons.mp h with h | h
      · exact ⟨kw0, List.mem_cons_self kw0 rest, by rw [h]⟩
      · obtain ⟨kw, hkw, heq⟩ := ih h
        exact ⟨kw, List.mem_cons_of_mem kw0 hkw, heq⟩

theorem dictDelete_mem {α : Type} {m : List (String × α)} {k : String}
    {kv : String × α} (h : kv ∈ dictDelete m k) : kv ∈ m := by
  induction m with
  | nil => simp [dictDelete] at h
  | cons kw0 rest ih =>
    by_cases hk : (kw0.1 == k) = true
    · simp only [dictDelete, hk, if_true] at h
      exact List.mem_cons_of_mem kw0 h
    · simp only [dictDelete, hk, if_false] at h
      rcases List.mem_cons.mp h with h | h
      · exact h ▸ List.mem_cons_self kw0 rest
      · exact List.mem_cons_of_mem kw0 (ih h)

/-- Claim C8, counterexample: the creation guard is Python
`str.isdigit`, which accepts Unicode digit characters beyond the
decimal digits — the superscript two U+00B2 passes it, so a year
bucket is created under the key `"²"`, a key that is not a string of
decimal digits. -/
theorem addYearEntry_accepts_superscript :
    dictGet (addYearEntry ([] : List (String × List Publication)) "²"
        defaultPublication) "²" = some [defaultPublication] ∧
      isDecimalDigits "²" = false ∧ yearGuard "²" = true :=
  ⟨rfl, by decide, by decide⟩

/-- Claim C8 (amended): every key of a year-keyed map is a non-empty
string of characters accepted by the code's digit guard (Python
`str.isdigit` — the decimal digits together with the other Unicode
digit characters, such as superscripts); the invariant is preserved by
the add and the remove handler, a bucket is created or appended to
only when the supplied key passes the guard, and input failing the
guard is silently rejected, leaving the record unchanged. -/
theorem yearKey_invariant {α : Type} (m : List (String × List α))
    (year : String) (dflt : α) (i : Nat)
    (hinv : ∀ kv ∈ m, yearGuard kv.1 = true) :
    (∀ kv ∈ addYearEntry m year dflt, yearGuard kv.1 = true) ∧
      (∀ kv ∈ removeYearEntry m year i, yearGuard kv.1 = true) ∧
      (yearGuard year = false → addYearEntry m year dflt = m) := by
  refine ⟨?_, ?_, ?_⟩
  · intro kv hkv
    by_cases hg : yearGuard year = true
    · simp only [addYearEntry, hg, if_true] at hkv
      have hm1 : ∀ kv ∈ (if dictContains m year then m
          else m ++ [(year, [])]), yearGuard kv.1 = true := by
        split
        · exact hinv
        · intro kw hkw
          rcases List.mem_append.mp hkw with h | h
          · exact hinv kw h
          · simp only [List.mem_singleton] at h
            rw [h]
            exact hg
      obtain ⟨kw, hkw, heq⟩ := modifyBucket_mem_keys hkv
      rw [heq]
      exact hm1 kw hkw
    · simp only [addYearEntry, hg, if_false] at hkv
      exact hinv kv hkv
  · intro kv hkv
    have step : ∀ kw ∈ modifyBucket m year
        (fun l => l.take i ++ l.drop (i + 1)), yearGuard kw.1 = true := by
      intro kw hkw
      obtain ⟨kw2, hkw2, heq⟩ := modifyBucket_mem_keys hkw
      rw [heq]
      exact hinv kw2 hkw2
    simp only [removeYearEntry] at hkv
    split at hkv
    · exact step kv (dictDelete_mem hkv)
    · exact step kv hkv
  · intro hg
    simp [addYearEntry, hg]

/-- Concrete instantiation of the year-key invariant on a one-bucket
map and the non-digit input `"20x4"`, which is silently rejected. -/
theorem yearKey_invariant_witness :
    (∀ kv ∈ addYearEntry [("2020", [defaultPublication])] "20x4"
        defaultPublication, yearGuard kv.1 = true) ∧
      (∀ kv ∈ removeYearEntry [("2020", [defaultPublication])] "20x4" 0,
        yearGuard kv.1 = true) ∧
      (yearGuard "20x4" = false →
        addYearEntry [("2020", [defaultPublication])] "20x4"
          defaultPublication = [("2020", [defaultPublication])]) :=
  yearKey_invariant [("2020", [defaultPublication])] "20x4"
    defaultPublication 0 (by decide)

/-- A row of the `cv_files` table — `filename TEXT PRIMARY KEY,
content TEXT, created_at TEXT` (`src/cv_builder.py` lines 119-125;
identically `src/db_converter.py` lines 29-35). -/
structure Row where
  filename : String
  content : String
  created_at : String

/-- SQLite `INSERT OR REPLACE` on a table whose primary key is
`filename`: any row conflicting on the key is deleted and the new row
inserted. -/
def insertOrReplace (tbl : List Row) (r : Row) : List Row :=
  (tbl.filter fun q => q.filename ≠ r.filename) ++ [r]

/-- The three upserts of one save (`src/cv_builder.py` lines 127-132;
`src/db_converter.py` lines 38-44), all stamped with the one
`datetime.now().isoformat()` timestamp taken for the save. -/
def writeCvFiles (tbl : List Row) (json tex sty time : String) : List Row :=
  insertOrReplace
    (insertOrReplace
      (insertOrReplace tbl
        { filename := "cv_data.json", content := json, created_at := time })
      { filename := "cv_template.tex", content := tex, created_at := time })
    { filename := "cv_style.sty", content := sty, created_at := time }

theorem filter_insertOrReplace_self (tbl : List Row) (r : Row) :
    (insertOrReplace tbl r).filter (fun q => q.filename = r.filename) =
      [r] := by
  induction tbl with
  | nil => simp [insertOrReplace]
  | cons q rest ih =>
    by_cases h : q.filename = r.filename
    · simp [insertOrReplace, h]
    · simp [insertOrReplace, h]

theorem filter_insertOrReplace_ne (tbl : List Row) (r : Row) (k : String)
    (h : r.filename ≠ k) :
    (insertOrReplace tbl r).filter (fun q => q.filename = k) =
      tbl.filter fun q => q.filename = k := by
  have hp : (fun a : Row =>
        decide (a.filename = k) && !decide (a.filename = r.filename)) =
      fun a : Row => decide (a.filename = k) := by
    funext a
    by_cases ha : a.filename = k
    · simp only [ha, decide_eq_true_eq]
      have : ¬ k = r.filename := fun hh => h hh.symm
      simp [this]
    · simp [ha]
  simp only [insertOrReplace, List.filter_append, List.filter_filter,
    decide_not]
  rw [hp]
  simp [h]

/-- Claim C9: the persisted store holds at most one row per filename
key — after writing the three files and then writing again with new
`cv_data.json` content and a later timestamp, exactly one
`cv_data.json` row remains, holding the second content and the second
timestamp, which is strictly later than the first (the strictness of
the clock between the two writes is the environment's, carried here as
the hypothesis on the two timestamps). -/
theorem store_upsert (tbl : List Row) (j1 j2 tex sty t1 t2 : String)
    (hlt : t1 < t2) :
    ((writeCvFiles (writeCvFiles tbl j1 tex sty t1) j2 tex sty t2).filter
        fun r => r.filename = "cv_data.json") =
        [{ filename := "cv_data.json", content := j2, created_at := t2 }] ∧
      ∀ r ∈ writeCvFiles (writeCvFiles tbl j1 tex sty t1) j2 tex sty t2,
        r.filename = "cv_data.json" → r.content = j2 ∧ t1 < r.created_at := by
  have key : ∀ tbl0 : List Row,
      ((writeCvFiles tbl0 j2 tex sty t2).filter
        fun r => r.filename = "cv_data.json") =
        [{ filename := "cv_data.json", content := j2, created_at := t2 }] := by
    intro tbl0
    simp only [writeCvFiles]
    rw [filter_insertOrReplace_ne _ _ _
        (show ("cv_style.sty" : String) ≠ "cv_data.json" by decide),
      filter_insertOrReplace_ne _ _ _
        (show ("cv_template.tex" : String) ≠ "cv_data.json" by decide)]
    exact filter_insertOrReplace_self tbl0
      { filename := "cv_data.json", content := j2, created_at := t2 }
  refine ⟨key _, fun r hr hname => ?_⟩
  have hmem : r ∈ ((writeCvFiles (writeCvFiles tbl j1 tex sty t1) j2 tex sty
      t2).filter fun r => r.filename = "cv_data.json") :=
    List.mem_filter.mpr ⟨hr, by simp [hname]⟩
  rw [key _] at hmem
  simp only [List.mem_singleton] at hmem
  rw [hmem]
  exact ⟨rfl, hlt⟩

/-- Concrete instantiation of the upsert contract: an empty table
written twice within the same store file, with distinct contents and
increasing ISO-8601 timestamps. -/
theorem store_upsert_witness :
    ((writeCvFiles (writeCvFiles [] "a" "t" "s" "2024-01-01T00:00:00") "b"
        "t" "s" "2024-01-01T00:00:01").filter
        fun r => r.filename = "cv_data.json") =
        [{ filename := "cv_data.json", content := "b",
           created_at := "2024-01-01T00:00:01" }] ∧
      ∀ r ∈ writeCvFiles (writeCvFiles [] "a" "t" "s"
          "2024-01-01T00:00:00") "b" "t" "s" "2024-01-01T00:00:01",
        r.filename = "cv_data.json" →
          r.content = "b" ∧ "2024-01-01T00:00:00" < r.created_at :=
  store_upsert [] "a" "b" "t" "s" "2024-01-01T00:00:00"
    "2024-01-01T00:00:01"
    (by rw [String.lt_iff_toList_lt]; decide)
